import Mathlib

/-!
Verification of the Conversational Intent Resolution Engine of the
cryptofolio repository (`src/ai/intent.rs`, `src/ai/conversation.rs`,
`src/ai/providers/ollama.rs`, `src/ai/providers/claude.rs`, `src/ai/mod.rs`).

Shallow embedding conventions:
* Rust `f64` values are modelled by the exact decimal fixed-point type
  `Deci` below (integer mantissa over a power of ten).  Every numeric
  literal appearing in the claims ("0.1", "95000", "500") is an exact
  decimal, for which Rust's shortest round-trip `Display` output coincides
  with the printer `Deci.toDisplay` below.  Non-finite float literals
  ("inf", "nan") and exponent forms are outside the model.
* `HashMap<String, Entity>` is modelled as an association list with
  insert-replaces-existing-key semantics (`insertEnt`); map contents (the
  only thing the engine observes, via keyed lookup) are order-independent.
* Rust strings are ASCII in all modelled inputs, so `to_lowercase` is
  per-character lowering and byte indices coincide with char indices.
* Fallible Rust functions returning `Result` are modelled with `Except`;
  network I/O is reified as an explicit outcome datatype passed in.
-/

set_option maxRecDepth 4000

/-! ## String helpers (models of Rust `str` methods) -/

/-- Per-character lowercasing; model of `str::to_lowercase` on ASCII input. -/
def toLowerStr (s : String) : String :=
  String.mk (s.data.map Char.toLower)

/-- Does `needle` match at the head of `hay`?  Returns the rest on success. -/
def matchLit : List Char → List Char → Option (List Char)
| [], hay => some hay
| _ :: _, [] => none
| n :: ns, h :: hs => if n = h then matchLit ns hs else none

/-- Is `needle` a contiguous sublist of `hay`?  Model of `str::contains`. -/
def hasSubList (needle : List Char) : List Char → Bool
| [] => (matchLit needle []).isSome
| c :: cs => (matchLit needle (c :: cs)).isSome || hasSubList needle cs

/-- Model of Rust `haystack.contains(needle)` for string patterns. -/
def strHas (hay needle : String) : Bool :=
  hasSubList needle.data hay.data

/-- Index (in chars = bytes for ASCII) of the first occurrence of `needle`;
model of `str::find`. -/
def findIdxL (needle : List Char) : List Char → Option Nat
| [] => if (matchLit needle []).isSome then some 0 else none
| c :: cs =>
  if (matchLit needle (c :: cs)).isSome then some 0
  else (findIdxL needle cs).map (· + 1)

/-- First char index of character `t`; model of `str::find(char)`. -/
def firstIdxOf (cs : List Char) (t : Char) : Option Nat :=
  findIdxL [t] cs

/-- Last char index of character `t`; model of `str::rfind(char)`. -/
def lastIdxOf (cs : List Char) (t : Char) : Option Nat :=
  (findIdxL [t] cs.reverse).map (fun i => cs.length - 1 - i)

/-- Split at every char satisfying `p` (empty chunks kept, as in
`String.split`). -/
def splitPred (p : Char → Bool) : List Char → List Char → List (List Char)
| acc, [] => [acc.reverse]
| acc, c :: cs => if p c then acc.reverse :: splitPred p [] cs else splitPred p (c :: acc) cs

/-- Model of `str::split_whitespace` (empty chunks filtered out). -/
def wordsOf (s : String) : List String :=
  ((splitPred Char.isWhitespace [] s.data).map String.mk).filter (fun w => w ≠ "")

/-- Remove every occurrence of a character; model of `str::replace(c, "")`. -/
def stripChar (s : String) (c : Char) : String :=
  String.mk (s.data.filter (fun x => x ≠ c))

/-- Replace every occurrence of a character by a string; model of
`str::replace(c, r)`. -/
def replaceChar (s : String) (c : Char) (r : List Char) : String :=
  String.mk (s.data.foldr (fun x acc => if x = c then r ++ acc else x :: acc) [])

/-- Model of `str::trim` (whitespace from both ends). -/
def trimStr (s : String) : String :=
  String.mk (((s.data.dropWhile Char.isWhitespace).reverse.dropWhile
    Char.isWhitespace).reverse)

/-- Uppercase the first character; model of the capitalisation in
`extract_account`. -/
def capitalizeFirst (s : String) : String :=
  match s.data with
  | [] => s
  | c :: cs => String.mk (c.toUpper :: cs)

/-! ## Decimal number parsing and printing -/

/-- Digits run at the head of a char list (greedy `\d*`). -/
def spanDigits : List Char → List Char × List Char
| [] => ([], [])
| c :: cs =>
  if c.isDigit then
    let p := spanDigits cs
    (c :: p.1, p.2)
  else ([], c :: cs)

def digitsVal (ds : List Char) : Nat :=
  ds.foldl (fun acc c => acc * 10 + (c.toNat - ('0').toNat)) 0

/-- Exact decimal fixed-point model of `f64`: the value `man / 10^exp`,
kept unnormalised.  Every number flowing through the engine originates from
a decimal literal, for which this representation is exact; all arithmetic
is plain `Int`/`Nat` arithmetic (kernel-reducible, unlike normalised
rationals).  A source literal `x.y…` is written `dec xy… d` with `d` its
count of fraction digits (`0.6` is `dec 6 1`, `1000.0` is `dec 10000 1`). -/
structure Deci where
  man : Int
  exp : Nat
deriving DecidableEq

def dec (man : Int) (exp : Nat) : Deci := ⟨man, exp⟩

/-- `f64` multiplication (exact on decimals). -/
def Deci.mul (a b : Deci) : Deci := ⟨a.man * b.man, a.exp + b.exp⟩

/-- `f64` strict order (exact on decimals). -/
def Deci.blt (a b : Deci) : Bool :=
  a.man * Int.ofNat (10 ^ b.exp) < b.man * Int.ofNat (10 ^ a.exp)

/-- Value equality of two decimal representations. -/
def Deci.veq (a b : Deci) : Bool :=
  a.man * Int.ofNat (10 ^ b.exp) = b.man * Int.ofNat (10 ^ a.exp)

/-- Model of `str::parse::<f64>` restricted to plain decimal literals
(optional sign, digits, at most one point; at least one digit).  Exponent
and non-finite forms are not modelled. -/
def parseDec (s : String) : Option Deci :=
  let core := fun (cs : List Char) (neg : Bool) =>
    let p := spanDigits cs
    let finish := fun (intDs fracDs : List Char) (rest : List Char) =>
      if rest = [] ∧ (intDs ≠ [] ∨ fracDs ≠ []) then
        let m : Int := Int.ofNat (digitsVal intDs * 10 ^ fracDs.length + digitsVal fracDs)
        some (Deci.mk (if neg then -m else m) fracDs.length)
      else none
    match p.2 with
    | '.' :: r2 =>
      let q := spanDigits r2
      finish p.1 q.1 q.2
    | r => finish p.1 [] r
  match s.data with
  | '-' :: cs => core cs true
  | '+' :: cs => core cs false
  | cs => core cs false

def padZeros (s : String) (n : Nat) : String :=
  if s.length ≥ n then s else String.mk (List.replicate (n - s.length) '0') ++ s

/-- Drop trailing decimal zeros: the shortest representation of the value. -/
def stripZerosAux : Nat → Int → Nat → Int × Nat
| 0, m, e => (m, e)
| fuel + 1, m, e =>
  if e = 0 then (m, e)
  else if m % 10 = 0 then stripZerosAux fuel (m / 10) (e - 1)
  else (m, e)

/-- Model of `f64::to_string` (shortest round-trip `Display`) for the exact
decimals in this development. -/
def Deci.toDisplay (d : Deci) : String :=
  if d.man < 0 then "-" ++ displayNN (-d.man) d.exp else displayNN d.man d.exp
where
  displayNN (man : Int) (exp : Nat) : String :=
    let p := stripZerosAux exp man exp
    if p.2 = 0 then toString p.1
    else
      let s := (padZeros (toString p.1.toNat) (p.2 + 1)).data
      String.mk (s.take (s.length - p.2)) ++ "." ++ String.mk (s.drop (s.length - p.2))

/-- Model of `format!("{:.2}", x)` for exact decimals (rounding to cents is
floor of value plus half a cent; no rounding ties occur in the modelled
values). -/
def Deci.format2 (d : Deci) : String :=
  if d.man < 0 then "-" ++ fmtNN (-d.man) d.exp else fmtNN d.man d.exp
where
  fmtNN (man : Int) (exp : Nat) : String :=
    let den : Int := Int.ofNat (10 ^ exp)
    let cents : Int := Int.fdiv (2 * (man * 100) + den) (2 * den)
    toString (Int.fdiv cents 100) ++ "."
      ++ padZeros (toString ((Int.emod cents 100).toNat)) 2

/-! ## Intent / Entity schema (`src/ai/intent.rs`) -/

/-- `Intent` enum, `src/ai/intent.rs` lines 7–67. -/
inductive Intent where
| priceCheck
| marketView
| txBuy
| txSell
| txTransfer
| txSwap
| portfolioView
| holdingsList
| holdingsAdd
| holdingsRemove
| holdingsMove
| accountList
| accountAdd
| accountShow
| sync
| configShow
| configSet
| help
| unclear
| ambiguous
| outOfScope
deriving DecidableEq

/-- `Intent::to_command`. -/
def Intent.to_command : Intent → Option String
| .priceCheck => some "price"
| .marketView => some "market"
| .txBuy => some "tx buy"
| .txSell => some "tx sell"
| .txTransfer => some "tx transfer"
| .txSwap => some "tx swap"
| .portfolioView => some "portfolio"
| .holdingsList => some "holdings list"
| .holdingsAdd => some "holdings add"
| .holdingsRemove => some "holdings remove"
| .holdingsMove => some "holdings move"
| .accountList => some "account list"
| .accountAdd => some "account add"
| .accountShow => some "account show"
| .sync => some "sync"
| .configShow => some "config show"
| .configSet => some "config set"
| .help => some "help"
| .unclear => none
| .ambiguous => none
| .outOfScope => none

/-- `Intent::required_entities`. -/
def Intent.required_entities : Intent → List String
| .priceCheck => ["symbols"]
| .marketView => ["symbol"]
| .txBuy => ["asset", "quantity", "account", "price"]
| .txSell => ["asset", "quantity", "account", "price"]
| .txTransfer => ["asset", "quantity", "from_account", "to_account"]
| .txSwap => ["from_asset", "from_quantity", "to_asset", "to_quantity", "account"]
| .holdingsAdd => ["asset", "quantity", "account"]
| .holdingsRemove => ["asset", "quantity", "account"]
| .holdingsMove => ["asset", "quantity", "from_account", "to_account"]
| .accountAdd => ["name", "account_type", "category"]
| .accountShow => ["name"]
| .sync => []
| _ => []

/-- `Intent::requires_confirmation`. -/
def Intent.requires_confirmation : Intent → Bool
| .txBuy => true
| .txSell => true
| .txTransfer => true
| .txSwap => true
| .holdingsAdd => true
| .holdingsRemove => true
| .holdingsMove => true
| .accountAdd => true
| _ => false

/-- `Entity` enum (constructors renamed from `String`/`Number`/`Symbols`/
`Boolean` to avoid clashing with Lean type names). -/
inductive Entity where
| str : String → Entity
| num : Deci → Entity
| symbols : List String → Entity
| boolean : Bool → Entity
deriving DecidableEq

/-- `Entity::as_string`. -/
def Entity.as_string : Entity → Option String
| .str s => some s
| _ => none

/-- `Entity::as_number` (a `String` entity is parsed). -/
def Entity.as_number : Entity → Option Deci
| .num n => some n
| .str s => parseDec s
| _ => none

/-- `Entity::as_symbols`. -/
def Entity.as_symbols : Entity → Option (List String)
| .symbols v => some v
| _ => none

/-- Association-list lookup; model of `HashMap::get`. -/
def findEnt : List (String × Entity) → String → Option Entity
| [], _ => none
| (k, v) :: t, key => if k = key then some v else findEnt t key

/-- Association-list insert; model of `HashMap::insert` (replaces an
existing binding for the key, otherwise appends). -/
def insertEnt (m : List (String × Entity)) (k : String) (v : Entity) :
    List (String × Entity) :=
  if m.any (fun p => p.1 = k) then
    m.map (fun p => if p.1 = k then (k, v) else p)
  else m ++ [(k, v)]

/-- `ParsedInput` struct. -/
structure ParsedInput where
  intent : Intent
  entities : List (String × Entity)
  missing : List String
  confidence : Deci
  raw_input : String
deriving DecidableEq

/-- `ParsedInput::get_string`. -/
def ParsedInput.get_string (p : ParsedInput) (key : String) : Option String :=
  (findEnt p.entities key).bind Entity.as_string

/-- `ParsedInput::get_number`. -/
def ParsedInput.get_number (p : ParsedInput) (key : String) : Option Deci :=
  (findEnt p.entities key).bind Entity.as_number

/-- `ParsedInput::to_cli_command` (`src/ai/intent.rs` lines 212–319). -/
def ParsedInput.to_cli_command (p : ParsedInput) : Option String :=
  match p.intent.to_command with
  | none => none
  | some base =>
    let parts := [base]
    let parts :=
      match p.intent with
      | .priceCheck =>
        match findEnt p.entities "symbols" with
        | some (.symbols syms) => parts ++ syms
        | some (.str s) => parts ++ [s]
        | _ => parts
      | .marketView =>
        let parts := match p.get_string "symbol" with
          | some s => parts ++ [s]
          | none => parts
        match findEnt p.entities "show_24h" with
        | some (.boolean true) => parts ++ ["--24h"]
        | _ => parts
      | .txBuy | .txSell =>
        let parts := match p.get_string "asset" with
          | some s => parts ++ [s] | none => parts
        let parts := match p.get_number "quantity" with
          | some n => parts ++ [n.toDisplay] | none => parts
        let parts := match p.get_string "account" with
          | some s => parts ++ ["--account", "\"" ++ s ++ "\""] | none => parts
        match p.get_number "price" with
        | some n => parts ++ ["--price", n.toDisplay] | none => parts
      | .txTransfer | .holdingsMove =>
        let parts := match p.get_string "asset" with
          | some s => parts ++ [s] | none => parts
        let parts := match p.get_number "quantity" with
          | some n => parts ++ [n.toDisplay] | none => parts
        let parts := match p.get_string "from_account" with
          | some s => parts ++ ["--from", "\"" ++ s ++ "\""] | none => parts
        match p.get_string "to_account" with
        | some s => parts ++ ["--to", "\"" ++ s ++ "\""] | none => parts
      | .holdingsAdd =>
        let parts := match p.get_string "asset" with
          | some s => parts ++ [s] | none => parts
        let parts := match p.get_number "quantity" with
          | some n => parts ++ [n.toDisplay] | none => parts
        let parts := match p.get_string "account" with
          | some s => parts ++ ["--account", "\"" ++ s ++ "\""] | none => parts
        match p.get_number "cost_basis" with
        | some n => parts ++ ["--cost", n.toDisplay] | none => parts
      | .portfolioView =>
        let parts := match p.get_string "account" with
          | some s => parts ++ ["--account", "\"" ++ s ++ "\""] | none => parts
        let parts := match p.get_string "category" with
          | some s => parts ++ ["--category", "\"" ++ s ++ "\""] | none => parts
        let parts := match findEnt p.entities "by_account" with
          | some (.boolean true) => parts ++ ["--by-account"] | _ => parts
        match findEnt p.entities "by_category" with
        | some (.boolean true) => parts ++ ["--by-category"] | _ => parts
      | .sync =>
        match p.get_string "account" with
        | some s => parts ++ ["--account", "\"" ++ s ++ "\""] | none => parts
      | .accountAdd =>
        let parts := match p.get_string "name" with
          | some s => parts ++ ["\"" ++ s ++ "\""] | none => parts
        let parts := match p.get_string "account_type" with
          | some s => parts ++ ["--type", s] | none => parts
        match p.get_string "category" with
        | some s => parts ++ ["--category", s] | none => parts
      | _ => parts
    some (String.intercalate " " parts)

/-! ## Deterministic extractor (`src/ai/providers/ollama.rs`) -/

/-- Provider fields of `OllamaProvider` that the pure extraction methods
receive via `&self` but never read; threaded to state the purity claim. -/
structure ProviderState where
  base_url : String
  model_name : String
deriving DecidableEq

/-- `\s*`: drop leading whitespace. -/
def dropSpaces (cs : List Char) : List Char :=
  match cs with
  | [] => []
  | c :: t => if c.isWhitespace then dropSpaces t else c :: t

/-- Greedy `\d+\.?\d*`: matched numeral chars and the rest (`none` when no
leading digit). -/
def matchNumTok (cs : List Char) : Option (List Char × List Char) :=
  let p := spanDigits cs
  if p.1 = [] then none
  else
    match p.2 with
    | '.' :: r2 =>
      let q := spanDigits r2
      some (p.1 ++ '.' :: q.1, q.2)
    | r => some (p.1, r)

/-- First alternative (in order) matching at the head; rest on success. -/
def matchAlt (lits : List (List Char)) (hay : List Char) : Option (List Char) :=
  match lits with
  | [] => none
  | l :: ls =>
    match matchLit l hay with
    | some r => some r
    | none => matchAlt ls hay

/-- Leftmost match: try `f` at each start position, left to right.  This is
the leftmost-first semantics of the `regex` crate for the patterns used here
(none of which needs backtracking, see the per-pattern comments). -/
def scanFirst {α : Type} (f : List Char → Option α) : List Char → Option α
| [] => f []
| c :: cs =>
  match f (c :: cs) with
  | some r => some r
  | none => scanFirst f cs

/-- The coin-symbol alternation of `extract_quantity` pattern 1. -/
def coinSyms : List String :=
  ["btc", "eth", "sol", "ada", "doge", "xrp", "dot", "avax", "matic", "ltc", "link"]

/-- Pattern `(\d+\.?\d*)\s*(?:btc|eth|sol|ada|doge|xrp|dot|avax|matic|ltc|link)`
matched at one position. -/
def qtyPat1At (cs : List Char) : Option (List Char) :=
  match matchNumTok cs with
  | none => none
  | some (num, r1) =>
    match matchAlt (coinSyms.map String.data) (dropSpaces r1) with
    | some _ => some num
    | none => none

/-- Pattern `(\d+\.?\d*)\s+(?:bitcoin|ethereum|solana)` at one position. -/
def qtyPat2At (cs : List Char) : Option (List Char) :=
  match matchNumTok cs with
  | none => none
  | some (num, r1) =>
    match r1 with
    | c :: t =>
      if c.isWhitespace then
        match matchAlt (["bitcoin", "ethereum", "solana"].map String.data) (dropSpaces t) with
        | some _ => some num
        | none => none
      else none
    | [] => none

/-- Pattern `<word>\s+(\d+\.?\d*)` at one position (for `bought`/`sold`). -/
def qtyPatWordAt (word : List Char) (cs : List Char) : Option (List Char) :=
  match matchLit word cs with
  | none => none
  | some r1 =>
    match r1 with
    | c :: t =>
      if c.isWhitespace then (matchNumTok (dropSpaces t)).map (fun p => p.1)
      else none
    | [] => none

/-- `OllamaProvider::extract_quantity` (lines 295–328): four regex patterns
over the lowercased input, then the bare-number word loop over the original
input with the `(0, 1_000_000)` range filter. -/
def extract_quantity (_prov : ProviderState) (input : String) : Option Deci :=
  let low := (toLowerStr input).data
  let tryPat := fun (r : Option (List Char)) => r.bind (fun n => parseDec (String.mk n))
  match tryPat (scanFirst qtyPat1At low) with
  | some q => some q
  | none =>
  match tryPat (scanFirst qtyPat2At low) with
  | some q => some q
  | none =>
  match tryPat (scanFirst (qtyPatWordAt "bought".data) low) with
  | some q => some q
  | none =>
  match tryPat (scanFirst (qtyPatWordAt "sold".data) low) with
  | some q => some q
  | none => quantityWordLoop (wordsOf input)
where
  quantityWordLoop : List String → Option Deci
  | [] => none
  | w :: ws =>
    match parseDec (stripChar w ',') with
    | some n =>
      if (dec 0 1).blt n ∧ n.blt (dec 1000000 0) then some n
      else quantityWordLoop ws
    | none => quantityWordLoop ws

/-- Price pattern `(?:at|for|@)\s*\$?(\d+\.?\d*)(?:k)?` at one position
(the alternatives cannot overlap, so first-match is exact). -/
def pricePat1At (cs : List Char) : Option (List Char) :=
  match matchAlt [['a', 't'], ['f', 'o', 'r'], ['@']] cs with
  | none => none
  | some r1 =>
    let r2 := dropSpaces r1
    let r3 := match r2 with
      | '$' :: t => t
      | t => t
    (matchNumTok r3).map (fun p => p.1)

/-- Price pattern `\$(\d+\.?\d*)(?:k)?` at one position (unreachable after
the `$`-stripping of the input, kept for fidelity). -/
def pricePat2At (cs : List Char) : Option (List Char) :=
  match cs with
  | '$' :: t => (matchNumTok t).map (fun p => p.1)
  | _ => none

/-- Price pattern `(\d+\.?\d*)(?:k)?\s*(?:dollars?|usd|per)` at one position. -/
def pricePat3At (cs : List Char) : Option (List Char) :=
  match matchNumTok cs with
  | none => none
  | some (num, r1) =>
    let r2 := match r1 with
      | 'k' :: t => t
      | t => t
    match matchAlt (["dollar", "usd", "per"].map String.data) (dropSpaces r2) with
    | some _ => some num
    | none => none

/-- The captured number of the first price pattern that matches, before the
`k` adjustment (used to state what the `k` normalisation does). -/
def price_match_raw (input : String) : Option Deci :=
  let clean := stripChar (stripChar input ',') '$'
  let low := (toLowerStr clean).data
  let tryPat := fun (r : Option (List Char)) => r.bind (fun n => parseDec (String.mk n))
  match tryPat (scanFirst pricePat1At low) with
  | some q => some q
  | none =>
  match tryPat (scanFirst pricePat2At low) with
  | some q => some q
  | none => tryPat (scanFirst pricePat3At low)

/-- `OllamaProvider::extract_price` (lines 331–359): strip `,` and `$`,
lowercase, try the three patterns in order; on a parsed capture, multiply by
1000 when the whole lowercased cleaned input contains the letter `k` and the
captured value is below 1000. -/
def extract_price (_prov : ProviderState) (input : String) : Option Deci :=
  let clean := stripChar (stripChar input ',') '$'
  let low := (toLowerStr clean).data
  let hasK := low.contains 'k'
  let adjust := fun (n : Deci) =>
    if hasK ∧ n.blt (dec 10000 1) then n.mul (dec 10000 1) else n
  let tryPat := fun (r : Option (List Char)) => r.bind (fun n => parseDec (String.mk n))
  match tryPat (scanFirst pricePat1At low) with
  | some q => some (adjust q)
  | none =>
  match tryPat (scanFirst pricePat2At low) with
  | some q => some (adjust q)
  | none =>
  match tryPat (scanFirst pricePat3At low) with
  | some q => some (adjust q)
  | none => none

/-- The static alias table of `extract_symbols`. -/
def symbolTable : List (String × String) :=
  [("bitcoin", "BTC"), ("btc", "BTC"),
   ("ethereum", "ETH"), ("eth", "ETH"),
   ("solana", "SOL"), ("sol", "SOL"),
   ("cardano", "ADA"), ("ada", "ADA"),
   ("dogecoin", "DOGE"), ("doge", "DOGE"),
   ("xrp", "XRP"), ("ripple", "XRP"),
   ("polkadot", "DOT"), ("dot", "DOT"),
   ("avalanche", "AVAX"), ("avax", "AVAX"),
   ("matic", "MATIC"), ("polygon", "MATIC"),
   ("litecoin", "LTC"), ("ltc", "LTC"),
   ("chainlink", "LINK"), ("link", "LINK")]

/-- `OllamaProvider::extract_symbols` (lines 251–287). -/
def extract_symbols (_prov : ProviderState) (input : String) : List String :=
  let low := toLowerStr input
  symbolTable.foldl
    (fun acc p =>
      if strHas low p.1 ∧ ¬ acc.contains p.2 then acc ++ [p.2] else acc)
    []

/-- `OllamaProvider::extract_single_symbol`. -/
def extract_single_symbol (prov : ProviderState) (input : String) : Option String :=
  (extract_symbols prov input).head?

/-- The static known-exchange table of `extract_account`. -/
def knownAccounts : List String :=
  ["binance", "coinbase", "kraken", "ledger", "trezor", "metamask", "phantom"]

/-- `OllamaProvider::extract_account` (lines 362–399): known-exchange table
first (capitalised), else the `" on <word>"` heuristic (index found in the
lowercased input, slice taken from the original input; `len > 2` filter). -/
def extract_account (_prov : ProviderState) (input : String) : Option String :=
  let low := toLowerStr input
  match knownAccounts.find? (fun a => strHas low a) with
  | some a => some (capitalizeFirst a)
  | none =>
    match findIdxL " on ".data low.data with
    | some idx =>
      match (wordsOf (String.mk (input.data.drop (idx + 4)))).head? with
      | some a => if a.length > 2 then some a else none
      | none => none
    | none => none

/-- The shared sequential field-collection of the buy and sell branches of
`rule_based_fallback` (the two Rust branches are textually identical):
asset, quantity, price, account in order; a found field goes to `entities`,
a missing one appends its name to `missing`. -/
def collect_buy_sell (prov : ProviderState) (input : String) :
    List (String × Entity) × List String :=
  let step := fun (acc : List (String × Entity) × List String)
                  (name : String) (v : Option Entity) =>
    match v with
    | some e => (acc.1 ++ [(name, e)], acc.2)
    | none => (acc.1, acc.2 ++ [name])
  step (step (step (step ([], [])
    "asset" ((extract_single_symbol prov input).map Entity.str))
    "quantity" ((extract_quantity prov input).map Entity.num))
    "price" ((extract_price prov input).map Entity.num))
    "account" ((extract_account prov input).map Entity.str)

/-- `OllamaProvider::rule_based_fallback` (lines 94–248).  The Rust function
returns `Result` but every path is `Ok`; modelled as the plain value. -/
def rule_based_fallback (prov : ProviderState) (input : String) : ParsedInput :=
  let input_lower := toLowerStr input
  if strHas input_lower "price" || strHas input_lower "worth"
      || (matchLit "how much".data input_lower.data).isSome then
    let symbols := extract_symbols prov input
    { intent := .priceCheck,
      entities := if symbols.isEmpty then [] else [("symbols", Entity.symbols symbols)],
      missing := [], confidence := dec 6 1, raw_input := input }
  else if strHas input_lower "portfolio" || strHas input_lower "holdings"
      || strHas input_lower "what do i have" then
    { intent := .portfolioView, entities := [], missing := [],
      confidence := dec 7 1, raw_input := input }
  else if strHas input_lower "bought" || strHas input_lower "buy"
      || strHas input_lower "purchased" then
    let p := collect_buy_sell prov input
    { intent := .txBuy, entities := p.1, missing := p.2,
      confidence := dec 6 1, raw_input := input }
  else if strHas input_lower "sold" || strHas input_lower "sell" then
    let p := collect_buy_sell prov input
    { intent := .txSell, entities := p.1, missing := p.2,
      confidence := dec 6 1, raw_input := input }
  else if strHas input_lower "transfer" || strHas input_lower "move"
      || strHas input_lower "send" then
    { intent := .holdingsMove, entities := [],
      missing := ["asset", "quantity", "from_account", "to_account"],
      confidence := dec 5 1, raw_input := input }
  else if strHas input_lower "sync" || strHas input_lower "refresh"
      || strHas input_lower "update" then
    { intent := .sync, entities := [], missing := [],
      confidence := dec 6 1, raw_input := input }
  else if input_lower = "help" || input_lower = "?"
      || strHas input_lower "what can you" then
    { intent := .help, entities := [], missing := [],
      confidence := dec 9 1, raw_input := input }
  else
    { intent := .unclear, entities := [], missing := [],
      confidence := dec 0 1, raw_input := input }

/-! ## Dialogue state machine (`src/ai/conversation.rs`) -/

inductive Role where
| user
| assistant
deriving DecidableEq

structure ConversationTurn where
  role : Role
  content : String
deriving DecidableEq

/-- `ConversationState` struct (lines 8–24). -/
structure ConversationState where
  current_intent : Option Intent
  collected_entities : List (String × Entity)
  missing_entities : List String
  confirmation_pending : Bool
  last_account : Option String
  last_asset : Option String
  history : List ConversationTurn
deriving DecidableEq

/-- `ConversationState::new` / `Default`. -/
def ConversationState.empty : ConversationState :=
  { current_intent := none, collected_entities := [], missing_entities := [],
    confirmation_pending := false, last_account := none, last_asset := none,
    history := [] }

/-- `ConversationState::from_shell_context`. -/
def ConversationState.from_shell_context
    (last_account last_asset : Option String) : ConversationState :=
  { ConversationState.empty with last_account := last_account, last_asset := last_asset }

/-- `ConversationState::add_turn` (push, keep the last 10). -/
def add_turn (s : ConversationState) (role : Role) (content : String) :
    ConversationState :=
  let h := s.history ++ [{ role := role, content := content }]
  { s with history := if h.length > 10 then h.drop 1 else h }

/-- `ConversationState::clear_operation`. -/
def clear_operation (s : ConversationState) : ConversationState :=
  { s with current_intent := none, collected_entities := [],
           missing_entities := [], confirmation_pending := false }

/-- `ConversationState::update_from_parsed` (lines 71–84): `account`, then
`from_account` (overriding), into `last_account`; `asset` into `last_asset`. -/
def update_from_parsed (s : ConversationState) (parsed : ParsedInput) :
    ConversationState :=
  let s := match parsed.get_string "account" with
    | some a => { s with last_account := some a }
    | none => s
  let s := match parsed.get_string "from_account" with
    | some a => { s with last_account := some a }
    | none => s
  match parsed.get_string "asset" with
  | some a => { s with last_asset := some a }
  | none => s

/-- `ConversationAction` enum (lines 111–138). -/
inductive ConversationAction where
| clarify (question : String) (field : String) (suggestions : List String)
| confirm (summary : String) (command : String) (details : List (String × String))
| execute (command : String)
| cancel (message : String)
| disambiguate (message : String) (options : List String)
| respond (message : String)
| outOfScope (message : String)
deriving DecidableEq

/-- `ConversationManager::apply_context_defaults` (lines 330–340). -/
def apply_context_defaults (s : ConversationState) (parsed : ParsedInput) :
    ConversationState :=
  if parsed.missing.contains "account" then
    match s.last_account with
    | some a =>
      { s with collected_entities := insertEnt s.collected_entities "account" (Entity.str a) }
    | none => s
  else s

/-- `ConversationManager::calculate_missing` (lines 343–350). -/
def calculate_missing (s : ConversationState) (intent : Intent) : List String :=
  intent.required_entities.filter
    (fun e => (findEnt s.collected_entities e).isNone)

/-- `ConversationManager::get_clarification_question` (lines 353–390); the
ordered Rust `match` arms on `(field, intent)` reproduced as a decision
chain. -/
def get_clarification_question (field : String) (intent : Intent) :
    String × List String :=
  let question :=
    if field = "quantity" then
      match intent with
      | .txBuy => "How much did you buy?"
      | .txSell => "How much did you sell?"
      | _ => "What quantity?"
    else if field = "price" then
      match intent with
      | .txBuy => "What price did you pay per unit?"
      | .txSell => "What price did you sell at?"
      | _ => "Please provide the missing information."
    else if field = "account" then
      match intent with
      | .txBuy => "Which account did you buy on?"
      | .txSell => "Which account did you sell from?"
      | _ => "Which account?"
    else if field = "from_account" then "Which account to transfer from?"
    else if field = "to_account" then "Which account to transfer to?"
    else if field = "asset" then "Which cryptocurrency?"
    else if field = "symbol" then "Which cryptocurrency?"
    else if field = "symbols" then "Which cryptocurrency(s)?"
    else if field = "name" then
      match intent with
      | .accountAdd => "What name for the account?"
      | _ => "Please provide the missing information."
    else if field = "account_type" then
      "What type? (exchange, hardware_wallet, software_wallet)"
    else if field = "category" then
      "Which category? (trading, cold-storage, hot-wallets)"
    else "Please provide the missing information."
  let suggestions :=
    if field = "asset" ∨ field = "symbol" then ["BTC", "ETH", "SOL"]
    else if field = "account_type" then
      ["exchange", "hardware_wallet", "software_wallet"]
    else if field = "category" then ["trading", "cold-storage", "hot-wallets"]
    else []
  (question, suggestions)

/-- `ConversationManager::build_confirmation_summary` (lines 393–440). -/
def build_confirmation_summary (s : ConversationState) (intent : Intent) :
    String × List (String × String) :=
  let action :=
    match intent with
    | .txBuy => "BUY"
    | .txSell => "SELL"
    | .txTransfer => "TRANSFER"
    | .txSwap => "SWAP"
    | .holdingsAdd => "ADD HOLDINGS"
    | .holdingsRemove => "REMOVE HOLDINGS"
    | .holdingsMove => "MOVE HOLDINGS"
    | .accountAdd => "ADD ACCOUNT"
    | _ => "EXECUTE"
  let d : List (String × String) := []
  let d := match findEnt s.collected_entities "asset" with
    | some (.str a) => d ++ [("Asset", a)]
    | _ => d
  let d := match findEnt s.collected_entities "quantity" with
    | some (.num q) => d ++ [("Quantity", q.toDisplay)]
    | _ => d
  let d := match findEnt s.collected_entities "price" with
    | some (.num p) => d ++ [("Price", "$" ++ p.format2)]
    | _ => d
  let d := match findEnt s.collected_entities "account" with
    | some (.str a) => d ++ [("Account", a)]
    | _ => d
  let d := match findEnt s.collected_entities "from_account" with
    | some (.str a) => d ++ [("From", a)]
    | _ => d
  let d := match findEnt s.collected_entities "to_account" with
    | some (.str a) => d ++ [("To", a)]
    | _ => d
  let d :=
    if intent = .txBuy ∨ intent = .txSell then
      match findEnt s.collected_entities "quantity",
            findEnt s.collected_entities "price" with
      | some (.num q), some (.num p) => d ++ [("Total", "$" ++ (q.mul p).format2)]
      | _, _ => d
    else d
  ("Transaction: " ++ action, d)

/-- `ConversationManager::build_command` (lines 443–453). -/
def build_command (s : ConversationState) (intent : Intent) : String :=
  (ParsedInput.to_cli_command
    { intent := intent, entities := s.collected_entities, missing := [],
      confidence := dec 10 1, raw_input := "" }).getD ""

/-- The four control-intent short-circuits at the top of
`ConversationManager::process` (lines 174–210).  Apostrophes in the source
message texts are written `\x27`. -/
def controlAction : Intent → Option ConversationAction
| .unclear =>
  some (.clarify "I\x27m not sure what you\x27d like to do. Could you rephrase that?"
    "intent" ["check prices", "view portfolio", "record a transaction"])
| .ambiguous =>
  some (.disambiguate "I could help with a few things here."
    ["Check price", "View holdings"])
| .outOfScope =>
  some (.outOfScope "I can only help with cryptocurrency portfolio management.")
| .help =>
  some (.respond ("I can help you manage your crypto portfolio. Try things like:\n  "
    ++ "- \"What\x27s the price of Bitcoin?\"\n  "
    ++ "- \"I bought 0.1 BTC on Binance\"\n  "
    ++ "- \"Show my portfolio\"\n  "
    ++ "- \"Sync my exchanges\""))
| _ => none

/-- The state mutations at the head of the non-control tail of
`ConversationManager::process` (lines 212–225): set intent, store the
provider-supplied missing list, merge entities, apply context defaults,
update context. -/
def processMergedState (s : ConversationState) (parsed : ParsedInput) :
    ConversationState :=
  let s := { s with current_intent := some parsed.intent,
                    missing_entities := parsed.missing }
  let s := { s with collected_entities :=
    parsed.entities.foldl (fun m kv => insertEnt m kv.1 kv.2) s.collected_entities }
  let s := apply_context_defaults s parsed
  update_from_parsed s parsed

/-- The non-control tail of `ConversationManager::process` (lines 212–255):
the state mutations above, then recompute missing and decide the action. -/
def processMain (s : ConversationState) (parsed : ParsedInput) :
    ConversationState × ConversationAction :=
  let s := processMergedState s parsed
  match calculate_missing s parsed.intent with
  | f :: _ =>
    let q := get_clarification_question f parsed.intent
    (s, .clarify q.1 f q.2)
  | [] =>
    if parsed.intent.requires_confirmation then
      let s := { s with confirmation_pending := true }
      let sd := build_confirmation_summary s parsed.intent
      let command := build_command s parsed.intent
      (s, .confirm sd.1 command sd.2)
    else
      let command := build_command s parsed.intent
      (clear_operation s, .execute command)

/-- `ConversationManager::process` (lines 169–256). -/
def process (s : ConversationState) (parsed : ParsedInput) :
    ConversationState × ConversationAction :=
  let s := add_turn s .user parsed.raw_input
  match controlAction parsed.intent with
  | some a => (s, a)
  | none => processMain s parsed

/-- `ConversationManager::handle_confirmation` (lines 259–289). -/
def handle_confirmation (s : ConversationState) (input : String) :
    ConversationState × ConversationAction :=
  let input_lower := trimStr (toLowerStr input)
  if input_lower = "y" ∨ input_lower = "yes" ∨ input_lower = "" then
    match s.current_intent with
    | some intent =>
      let command := build_command s intent
      (clear_operation s, .execute command)
    | none => (s, .cancel "No pending operation.")
  else if input_lower = "n" ∨ input_lower = "no" ∨ input_lower = "cancel"
      ∨ input_lower = "abort" then
    (clear_operation s, .cancel "Operation cancelled.")
  else
    (s, .clarify "Please confirm with \x27y\x27 or cancel with \x27n\x27."
      "confirmation" ["y", "n"])

/-- `ConversationManager::handle_entity_input` (lines 292–327): computes an
optional `Entity` from the raw input and the expected field; the state is
threaded through untouched, as the Rust body never writes `self.state`. -/
def handle_entity_input (s : ConversationState) (input : String)
    (expected_field : String) : ConversationState × Option Entity :=
  let input := input.trim
  let result :=
    if expected_field = "quantity" ∨ expected_field = "price"
        ∨ expected_field = "cost_basis" ∨ expected_field = "fee" then
      let cleaned := replaceChar (replaceChar (stripChar (stripChar input ',') '$')
        'k' "000".data) 'K' "000".data
      (parseDec cleaned).map Entity.num
    else if expected_field = "symbols" then
      let symbols := ((splitPred (fun c => c = ',' || c.isWhitespace) [] input.data).map
        String.mk).filter (fun w => w ≠ "") |>.map toUpperStr
      if symbols.isEmpty then none else some (Entity.symbols symbols)
    else
      if input = "" then none else some (Entity.str input)
  (s, result)
where
  toUpperStr (s : String) : String := String.mk (s.data.map Char.toUpper)

/-! ## Providers and network model (`src/ai/providers/claude.rs`, `ollama.rs`) -/

/-- JSON values as far as `convert_entities` inspects them. -/
inductive JsonVal where
| jstr (s : String)
| jnum (q : Deci)
| jarr (elems : List JsonVal)
| jbool (b : Bool)
| jnull

/-- The decoded `AiResponse` struct shared by both providers. -/
structure AiResp where
  intent : String
  entities : Option (List (String × JsonVal))
  missing : Option (List String)
  confidence : Option Deci

/-- `convert_entities` (identical in both providers): strings, numbers,
arrays (string elements only), booleans; anything else skipped. -/
def convert_entities (entities : Option (List (String × JsonVal))) :
    List (String × Entity) :=
  match entities with
  | none => []
  | some es =>
    es.foldl
      (fun acc kv =>
        match kv.2 with
        | .jstr s => insertEnt acc kv.1 (Entity.str s)
        | .jnum q => insertEnt acc kv.1 (Entity.num q)
        | .jarr arr =>
          insertEnt acc kv.1 (Entity.symbols (arr.filterMap
            (fun v => match v with | .jstr s => some s | _ => none)))
        | .jbool b => insertEnt acc kv.1 (Entity.boolean b)
        | .jnull => acc)
      []

/-- `ClaudeProvider::map_intent` (claude.rs lines 85–111). -/
def claude_map_intent (intent_str : String) : Intent :=
  let s := toLowerStr intent_str
  if s = "price.check" ∨ s = "price_check" ∨ s = "check_price" then .priceCheck
  else if s = "market.view" ∨ s = "market_view" then .marketView
  else if s = "tx.buy" ∨ s = "tx_buy" ∨ s = "buy" ∨ s = "record_buy" then .txBuy
  else if s = "tx.sell" ∨ s = "tx_sell" ∨ s = "sell" ∨ s = "record_sell" then .txSell
  else if s = "tx.transfer" ∨ s = "tx_transfer" ∨ s = "transfer" then .txTransfer
  else if s = "tx.swap" ∨ s = "tx_swap" ∨ s = "swap" then .txSwap
  else if s = "portfolio.view" ∨ s = "portfolio_view" ∨ s = "view_portfolio"
      ∨ s = "portfolio" then .portfolioView
  else if s = "holdings.list" ∨ s = "holdings_list" ∨ s = "list_holdings" then .holdingsList
  else if s = "holdings.add" ∨ s = "holdings_add" ∨ s = "add_holdings" then .holdingsAdd
  else if s = "holdings.remove" ∨ s = "holdings_remove" then .holdingsRemove
  else if s = "holdings.move" ∨ s = "holdings_move" ∨ s = "move_holdings" then .holdingsMove
  else if s = "account.list" ∨ s = "account_list" ∨ s = "list_accounts" then .accountList
  else if s = "account.add" ∨ s = "account_add" ∨ s = "add_account" then .accountAdd
  else if s = "account.show" ∨ s = "account_show" ∨ s = "show_account" then .accountShow
  else if s = "sync" ∨ s = "sync_exchange" then .sync
  else if s = "config.show" ∨ s = "config_show" then .configShow
  else if s = "config.set" ∨ s = "config_set" then .configSet
  else if s = "help" then .help
  else if s = "ambiguous" then .ambiguous
  else if s = "out_of_scope" ∨ s = "out-of-scope" then .outOfScope
  else .unclear

/-- `OllamaProvider::map_intent` (ollama.rs lines 402–428; extra aliases
`price`, `market`, `holdings` relative to the Claude mapping). -/
def ollama_map_intent (intent_str : String) : Intent :=
  let s := toLowerStr intent_str
  if s = "price.check" ∨ s = "price_check" ∨ s = "check_price" ∨ s = "price" then .priceCheck
  else if s = "market.view" ∨ s = "market_view" ∨ s = "market" then .marketView
  else if s = "tx.buy" ∨ s = "tx_buy" ∨ s = "buy" ∨ s = "record_buy" then .txBuy
  else if s = "tx.sell" ∨ s = "tx_sell" ∨ s = "sell" ∨ s = "record_sell" then .txSell
  else if s = "tx.transfer" ∨ s = "tx_transfer" ∨ s = "transfer" then .txTransfer
  else if s = "tx.swap" ∨ s = "tx_swap" ∨ s = "swap" then .txSwap
  else if s = "portfolio.view" ∨ s = "portfolio_view" ∨ s = "view_portfolio"
      ∨ s = "portfolio" then .portfolioView
  else if s = "holdings.list" ∨ s = "holdings_list" ∨ s = "list_holdings"
      ∨ s = "holdings" then .holdingsList
  else if s = "holdings.add" ∨ s = "holdings_add" ∨ s = "add_holdings" then .holdingsAdd
  else if s = "holdings.remove" ∨ s = "holdings_remove" then .holdingsRemove
  else if s = "holdings.move" ∨ s = "holdings_move" ∨ s = "move_holdings" then .holdingsMove
  else if s = "account.list" ∨ s = "account_list" ∨ s = "list_accounts" then .accountList
  else if s = "account.add" ∨ s = "account_add" ∨ s = "add_account" then .accountAdd
  else if s = "account.show" ∨ s = "account_show" ∨ s = "show_account" then .accountShow
  else if s = "sync" ∨ s = "sync_exchange" then .sync
  else if s = "config.show" ∨ s = "config_show" then .configShow
  else if s = "config.set" ∨ s = "config_set" then .configSet
  else if s = "help" then .help
  else if s = "ambiguous" then .ambiguous
  else if s = "out_of_scope" ∨ s = "out-of-scope" then .outOfScope
  else .unclear

/-- `OllamaProvider::extract_json` (lines 81–91): slice from the first
opening brace to the last closing brace when they are properly ordered. -/
def extract_json (content : String) : String :=
  match firstIdxOf content.data ('{'), lastIdxOf content.data ('}') with
  | some st, some en =>
    if en > st then String.mk ((content.data.drop st).take (en - st + 1))
    else content
  | _, _ => content

/-- Decoding of model output text into an `AiResponse`; the serde JSON
parser is abstracted as a parameter (its details are irrelevant to the
claims settled here). -/
abbrev AiJsonParser := String → Option AiResp

/-- `ClaudeProvider::parse_response` (claude.rs lines 57–82): a decodable
body becomes a result (default confidence 0.8), an undecodable one an
`Unclear` result — never an error. -/
def claude_parse_response (jp : AiJsonParser) (content raw_input : String) :
    ParsedInput :=
  match jp content with
  | some r =>
    { intent := claude_map_intent r.intent,
      entities := convert_entities r.entities,
      missing := r.missing.getD [],
      confidence := r.confidence.getD (dec 8 1),
      raw_input := raw_input }
  | none =>
    { intent := .unclear, entities := [], missing := [],
      confidence := dec 0 1, raw_input := raw_input }

/-- `OllamaProvider::parse_response` (ollama.rs lines 57–78): a decodable
body (after `extract_json`) becomes a result (default confidence 0.7), an
undecodable one degrades to `rule_based_fallback`. -/
def ollama_parse_response (prov : ProviderState) (jp : AiJsonParser)
    (content raw_input : String) : ParsedInput :=
  match jp (extract_json content) with
  | some r =>
    { intent := ollama_map_intent r.intent,
      entities := convert_entities r.entities,
      missing := r.missing.getD [],
      confidence := r.confidence.getD (dec 7 1),
      raw_input := raw_input }
  | none => rule_based_fallback prov raw_input

/-- Reified outcome of the Claude provider's network interaction, one
constructor per control-flow branch of `ClaudeProvider::parse_input`
(claude.rs lines 231–280). -/
inductive ClaudeNet where
| sendErr (e : String)
| httpFail (status error_text : String)
| decodeFail (e : String)
| ok (content : String)

/-- `ClaudeProvider::parse_input`: a send error propagates via `?`, a
non-success status returns `Err(Other(..))`, a body-decode failure
propagates via `?`; only a delivered text body reaches `parse_response`. -/
def claude_parse_input (jp : AiJsonParser) (net : ClaudeNet) (input : String) :
    Except String ParsedInput :=
  match net with
  | .sendErr e => .error e
  | .httpFail status error_text =>
    .error ("Claude API error (" ++ status ++ "): " ++ error_text)
  | .decodeFail e => .error e
  | .ok content => .ok (claude_parse_response jp content input)

/-- Reified outcome of the Ollama provider's network interaction, one
constructor per control-flow branch of `OllamaProvider::parse_input`
(ollama.rs lines 493–531). -/
inductive OllamaNet where
| healthDown
| sendErr (e : String)
| httpFail
| bodyDecodeFail
| ok (responseText : String)

/-- `OllamaProvider::parse_input`: every failure branch degrades to
`rule_based_fallback`; a delivered body goes through `parse_response`
(which itself bottoms out at the fallback).  Every path returns `Ok`. -/
def ollama_parse_input (prov : ProviderState) (jp : AiJsonParser)
    (net : OllamaNet) (input : String) : Except String ParsedInput :=
  match net with
  | .healthDown => .ok (rule_based_fallback prov input)
  | .sendErr _ => .ok (rule_based_fallback prov input)
  | .httpFail => .ok (rule_based_fallback prov input)
  | .bodyDecodeFail => .ok (rule_based_fallback prov input)
  | .ok responseText => .ok (ollama_parse_response prov jp responseText input)

/-! ## Routing policy (`src/ai/mod.rs`) -/

inductive AiMode where
| online
| offline
| hybrid
| disabled
deriving DecidableEq

inductive Complexity where
| low
| medium
| high
deriving DecidableEq

inductive ProviderKind where
| claude
| ollama
deriving DecidableEq

/-- The multi-clause complexity markers of `assess_complexity`. -/
def complexPatterns : List String :=
  ["and then", "after that", "also", "but first", "if", "when",
   "multiple", "all my", "everything"]

/-- `AiService::assess_complexity` (mod.rs lines 151–179). -/
def assess_complexity (input : String) : Complexity :=
  let input_lower := toLowerStr input
  let word_count := (wordsOf input).length
  if word_count ≤ 3 then .low
  else if complexPatterns.any (fun p => strHas input_lower p) then .high
  else .medium

/-- `AiService::select_provider` (mod.rs lines 182–228); `c`/`o` are
`claude.is_some()` / `ollama.is_some()`. -/
def select_provider (mode : AiMode) (complexity : Complexity) (c o : Bool) :
    Option ProviderKind :=
  match mode with
  | .disabled => none
  | .online => if c then some .claude else none
  | .offline => if o then some .ollama else none
  | .hybrid =>
    match complexity with
    | .low => if o then some .ollama else if c then some .claude else none
    | .medium => if o then some .ollama else if c then some .claude else none
    | .high => if c then some .claude else if o then some .ollama else none

/-- The ollama-first fallback chain at the bottom of
`AiService::parse_input` (mod.rs lines 125–129). -/
def fallback_provider (c o : Bool) : Option ProviderKind :=
  if o then some .ollama else if c then some .claude else none

/-- Which provider `AiService::parse_input` (mod.rs lines 107–139) actually
calls: the selected provider when its field is populated, else the
fallback chain; `none` means no provider call happens at all. -/
def called_provider (mode : AiMode) (complexity : Complexity) (c o : Bool) :
    Option ProviderKind :=
  match select_provider mode complexity c o with
  | some .claude => if c then some .claude else fallback_provider c o
  | some .ollama => if o then some .ollama else fallback_provider c o
  | none => fallback_provider c o

/-- `AiService::parse_input`: routes to the called provider's result, or
returns the `Unclear` stub when no provider is available.  The provider
call results are passed in explicitly. -/
def ai_parse_input (mode : AiMode) (c o : Bool)
    (claudeResult ollamaResult : Except String ParsedInput) (input : String) :
    Except String ParsedInput :=
  match called_provider mode (assess_complexity input) c o with
  | some .claude => claudeResult
  | some .ollama => ollamaResult
  | none =>
    .ok { intent := .unclear, entities := [], missing := [],
          confidence := dec 0 1, raw_input := input }

/-- `AiService::new` (mod.rs lines 68–93) only constructs the Claude
provider in `Online`/`Hybrid` mode and the Ollama provider in
`Offline`/`Hybrid` mode; every `AiService` reachable from configuration
satisfies this. -/
def ProvidersFromConfig (mode : AiMode) (c o : Bool) : Prop :=
  (c = true → mode = .online ∨ mode = .hybrid) ∧
  (o = true → mode = .offline ∨ mode = .hybrid)

/-! ## Operation traces of the dialogue state machine

The host console drives the state machine by calling `process` from the
idle state, `handle_confirmation` in the confirming state, and
`clear_operation` on user interrupt.  An `Ev` is one such call; a trace is
a list of calls, each yielding an optional emitted `ConversationAction`
(`clear_operation` emits none). -/

inductive Ev where
| proc (p : ParsedInput)
| confirmInput (input : String)
| clearOp

/-- One driver call: resulting state and emitted action. -/
def stepEv : ConversationState → Ev → ConversationState × Option ConversationAction
| s, .proc p => ((process s p).1, some (process s p).2)
| s, .confirmInput i => ((handle_confirmation s i).1, some (handle_confirmation s i).2)
| s, .clearOp => (clear_operation s, none)

/-- The claim's calling discipline: `process` only from idle,
`handle_confirmation` only in the confirming state. -/
def ValidEv (s : ConversationState) : Ev → Prop
| .proc _ => s.current_intent = none ∧ s.confirmation_pending = false
| .confirmInput _ => s.confirmation_pending = true
| .clearOp => True

def validFrom : ConversationState → List Ev → Prop
| _, [] => True
| s, e :: es => ValidEv s e ∧ validFrom (stepEv s e).1 es

/-- The run of a trace: per step, the pre-state and the emitted action. -/
def runFrom : ConversationState → List Ev → List (ConversationState × Option ConversationAction)
| _, [] => []
| s, e :: es => (s, (stepEv s e).2) :: runFrom (stepEv s e).1 es

def isConfirmA : Option ConversationAction → Bool
| some (.confirm _ _ _) => true
| _ => false

def isExecuteA : ConversationAction → Bool
| .execute _ => true
| _ => false

/-- Does this step end the current operation?  `clear_operation` itself
(`none`), and the two action kinds whose emission clears the state. -/
def opClears : Option ConversationAction → Bool
| none => true
| some (.execute _) => true
| some (.cancel _) => true
| _ => false

/-- A `Confirm` action occurs in the history and nothing after it ends the
operation: the pending confirmation is still the one that was shown. -/
def ConfirmOpen (h : List (Option ConversationAction)) : Prop :=
  ∃ j x, h.get? j = some x ∧ isConfirmA x = true ∧
    ∀ m y, j < m → h.get? m = some y → opClears y = false

/-- Trace invariant: whenever a confirmation is pending, an intent is set
and a `Confirm` was emitted earlier in the same operation. -/
def GateInv (s : ConversationState) (h : List (Option ConversationAction)) : Prop :=
  s.confirmation_pending = true → s.current_intent ≠ none ∧ ConfirmOpen h

/-! ## Concrete inputs used by witnesses and counterexamples -/

/-- The default provider fields (`DEFAULT_OLLAMA_URL`, `DEFAULT_MODEL`);
the extractors never read them. -/
def defaultProv : ProviderState :=
  { base_url := "http://localhost:11434", model_name := "llama3.2:3b" }

/-- A second, distinct provider state, for the purity statement. -/
def otherProv : ProviderState :=
  { base_url := "http://example.com:9999", model_name := "other-model" }

/-- A fully resolved buy parse, as a provider could deliver it. -/
def gateDemoParsed : ParsedInput :=
  { intent := .txBuy,
    entities := [("asset", Entity.str "BTC"), ("quantity", Entity.num (dec 1 0)),
                 ("account", Entity.str "Kraken"), ("price", Entity.num (dec 100 0))],
    missing := [], confidence := dec 6 1, raw_input := "buy 1 btc" }

def gateEvs : List Ev := [Ev.proc gateDemoParsed, Ev.confirmInput "y"]

def gateS1 : ConversationState :=
  (stepEv ConversationState.empty (Ev.proc gateDemoParsed)).1

def gateCmd : String := "tx buy BTC 1 --account \"Kraken\" --price 100"

/-- An honest buy parse with no account found (account reported missing),
exactly as `rule_based_fallback` shapes it. -/
def c3Parsed : ParsedInput :=
  { intent := .txBuy,
    entities := [("asset", Entity.str "BTC"), ("quantity", Entity.num (dec 2 0)),
                 ("price", Entity.num (dec 100 0))],
    missing := ["account"], confidence := dec 6 1, raw_input := "bought 2 btc at 100" }

/-- Session state with a remembered account, enabling the context default. -/
def c3State0 : ConversationState :=
  { ConversationState.empty with last_account := some "Binance" }

/-- A control-intent parse that nevertheless carries account and asset
entities. -/
def c4Parsed : ParsedInput :=
  { intent := .unclear,
    entities := [("account", Entity.str "Binance"), ("asset", Entity.str "BTC")],
    missing := [], confidence := dec 0 1, raw_input := "hmm" }

/-- A JSON parser that accepts nothing (any concrete parser works for the
failure-propagation statements). -/
def jpNone : AiJsonParser := fun _ => none

/-- Is an `Except` result `Ok`?  (Model of `Result::is_ok`.) -/
def exceptIsOk : Except String ParsedInput → Bool
| .ok _ => true
| .error _ => false

/-! ## Projection lemmas for the state-update helpers -/

@[simp]
theorem add_turn_current_intent (s : ConversationState) (r : Role) (c : String) :
    (add_turn s r c).current_intent = s.current_intent := rfl

@[simp]
theorem add_turn_confirmation_pending (s : ConversationState) (r : Role) (c : String) :
    (add_turn s r c).confirmation_pending = s.confirmation_pending := rfl

@[simp]
theorem add_turn_collected_entities (s : ConversationState) (r : Role) (c : String) :
    (add_turn s r c).collected_entities = s.collected_entities := rfl

@[simp]
theorem add_turn_missing_entities (s : ConversationState) (r : Role) (c : String) :
    (add_turn s r c).missing_entities = s.missing_entities := rfl

@[simp]
theorem add_turn_last_account (s : ConversationState) (r : Role) (c : String) :
    (add_turn s r c).last_account = s.last_account := rfl

@[simp]
theorem add_turn_last_asset (s : ConversationState) (r : Role) (c : String) :
    (add_turn s r c).last_asset = s.last_asset := rfl

@[simp]
theorem clear_operation_confirmation_pending (s : ConversationState) :
    (clear_operation s).confirmation_pending = false := rfl

@[simp]
theorem clear_operation_current_intent (s : ConversationState) :
    (clear_operation s).current_intent = none := rfl

@[simp]
theorem clear_operation_missing_entities (s : ConversationState) :
    (clear_operation s).missing_entities = [] := rfl

@[simp]
theorem clear_operation_last_account (s : ConversationState) :
    (clear_operation s).last_account = s.last_account := rfl

@[simp]
theorem clear_operation_last_asset (s : ConversationState) :
    (clear_operation s).last_asset = s.last_asset := rfl

@[simp]
theorem apply_context_defaults_confirmation_pending
    (s : ConversationState) (p : ParsedInput) :
    (apply_context_defaults s p).confirmation_pending = s.confirmation_pending := by
  unfold apply_context_defaults
  split
  · split <;> rfl
  · rfl

@[simp]
theorem apply_context_defaults_current_intent
    (s : ConversationState) (p : ParsedInput) :
    (apply_context_defaults s p).current_intent = s.current_intent := by
  unfold apply_context_defaults
  split
  · split <;> rfl
  · rfl

@[simp]
theorem apply_context_defaults_missing_entities
    (s : ConversationState) (p : ParsedInput) :
    (apply_context_defaults s p).missing_entities = s.missing_entities := by
  unfold apply_context_defaults
  split
  · split <;> rfl
  · rfl

@[simp]
theorem apply_context_defaults_last_account
    (s : ConversationState) (p : ParsedInput) :
    (apply_context_defaults s p).last_account = s.last_account := by
  unfold apply_context_defaults
  split
  · split <;> rfl
  · rfl

@[simp]
theorem apply_context_defaults_last_asset
    (s : ConversationState) (p : ParsedInput) :
    (apply_context_defaults s p).last_asset = s.last_asset := by
  unfold apply_context_defaults
  split
  · split <;> rfl
  · rfl

@[simp]
theorem update_from_parsed_confirmation_pending
    (s : ConversationState) (p : ParsedInput) :
    (update_from_parsed s p).confirmation_pending = s.confirmation_pending := by
  unfold update_from_parsed
  split <;> split <;> split <;> rfl

@[simp]
theorem update_from_parsed_current_intent
    (s : ConversationState) (p : ParsedInput) :
    (update_from_parsed s p).current_intent = s.current_intent := by
  unfold update_from_parsed
  split <;> split <;> split <;> rfl

@[simp]
theorem update_from_parsed_missing_entities
    (s : ConversationState) (p : ParsedInput) :
    (update_from_parsed s p).missing_entities = s.missing_entities := by
  unfold update_from_parsed
  split <;> split <;> split <;> rfl

@[simp]
theorem update_from_parsed_collected_entities
    (s : ConversationState) (p : ParsedInput) :
    (update_from_parsed s p).collected_entities = s.collected_entities := by
  unfold update_from_parsed
  split <;> split <;> split <;> rfl

/-- The value `update_from_parsed` leaves in `last_account`: `from_account`
wins over `account`, else the previous value survives. -/
theorem update_from_parsed_last_account (s : ConversationState) (p : ParsedInput) :
    (update_from_parsed s p).last_account =
      (match p.get_string "from_account" with
       | some a => some a
       | none =>
         match p.get_string "account" with
         | some a => some a
         | none => s.last_account) := by
  unfold update_from_parsed
  rcases h1 : p.get_string "account" with _ | a <;>
    rcases h2 : p.get_string "from_account" with _ | b <;>
    rcases h3 : p.get_string "asset" with _ | c <;>
    simp [h1, h2, h3]

/-- The value `update_from_parsed` leaves in `last_asset`. -/
theorem update_from_parsed_last_asset (s : ConversationState) (p : ParsedInput) :
    (update_from_parsed s p).last_asset =
      (match p.get_string "asset" with
       | some a => some a
       | none => s.last_asset) := by
  unfold update_from_parsed
  rcases h1 : p.get_string "account" with _ | a <;>
    rcases h2 : p.get_string "from_account" with _ | b <;>
    rcases h3 : p.get_string "asset" with _ | c <;>
    simp [h1, h2, h3]

/-! ## Branch analysis of `processMain` -/

@[simp]
theorem processMergedState_confirmation_pending
    (s : ConversationState) (p : ParsedInput) :
    (processMergedState s p).confirmation_pending = s.confirmation_pending := by
  simp [processMergedState]

@[simp]
theorem processMergedState_current_intent
    (s : ConversationState) (p : ParsedInput) :
    (processMergedState s p).current_intent = some p.intent := by
  simp [processMergedState]

@[simp]
theorem processMergedState_missing_entities
    (s : ConversationState) (p : ParsedInput) :
    (processMergedState s p).missing_entities = p.missing := by
  simp [processMergedState]

theorem processMergedState_last_account (s : ConversationState) (p : ParsedInput) :
    (processMergedState s p).last_account = (update_from_parsed s p).last_account := by
  simp [processMergedState, update_from_parsed_last_account]

theorem processMergedState_last_asset (s : ConversationState) (p : ParsedInput) :
    (processMergedState s p).last_asset = (update_from_parsed s p).last_asset := by
  simp [processMergedState, update_from_parsed_last_asset]

/-- Starting unpending, `processMain` either leaves the confirmation flag
clear or sets it while emitting a `Confirm` with the intent recorded. -/
theorem processMain_pending (s : ConversationState) (p : ParsedInput)
    (h : s.confirmation_pending = false) :
    (processMain s p).1.confirmation_pending = false ∨
    ((processMain s p).1.current_intent = some p.intent ∧
      isConfirmA (some (processMain s p).2) = true) := by
  unfold processMain
  rcases hm : calculate_missing (processMergedState s p) p.intent with _ | ⟨f, rest⟩
  · simp only [hm]
    by_cases hr : p.intent.requires_confirmation = true
    · right
      simp [hr, isConfirmA]
    · left
      simp [hr]
  · left
    simp [hm, h]

/-- `processMain` never emits `Execute` for a confirmation-requiring
intent. -/
theorem processMain_not_execute (s : ConversationState) (p : ParsedInput)
    (h : p.intent.requires_confirmation = true) :
    ∀ c, (processMain s p).2 ≠ ConversationAction.execute c := by
  unfold processMain
  rcases hm : calculate_missing (processMergedState s p) p.intent with _ | ⟨f, rest⟩ <;>
    simp [hm, h]

/-- What `processMain` stores in `missing_entities`: the provider-supplied
list verbatim, except that the immediate-execute branch clears it. -/
theorem processMain_missing (s : ConversationState) (p : ParsedInput) :
    (isExecuteA (processMain s p).2 = false →
      (processMain s p).1.missing_entities = p.missing) ∧
    (isExecuteA (processMain s p).2 = true →
      (processMain s p).1.missing_entities = []) := by
  unfold processMain
  rcases hm : calculate_missing (processMergedState s p) p.intent with _ | ⟨f, rest⟩
  · simp only [hm]
    by_cases hr : p.intent.requires_confirmation = true <;>
      simp [hr, isExecuteA]
  · simp [hm, isExecuteA]

/-- `processMain` updates `last_account` exactly as `update_from_parsed`
does on the incoming state. -/
theorem processMain_last_account (s : ConversationState) (p : ParsedInput) :
    (processMain s p).1.last_account = (update_from_parsed s p).last_account := by
  unfold processMain
  rcases hm : calculate_missing (processMergedState s p) p.intent with _ | ⟨f, rest⟩
  · simp only [hm]
    by_cases hr : p.intent.requires_confirmation = true <;>
      simp [hr, processMergedState_last_account]
  · simp [hm, processMergedState_last_account]

/-- `processMain` updates `last_asset` exactly as `update_from_parsed`
does on the incoming state. -/
theorem processMain_last_asset (s : ConversationState) (p : ParsedInput) :
    (processMain s p).1.last_asset = (update_from_parsed s p).last_asset := by
  unfold processMain
  rcases hm : calculate_missing (processMergedState s p) p.intent with _ | ⟨f, rest⟩
  · simp only [hm]
    by_cases hr : p.intent.requires_confirmation = true <;>
      simp [hr, processMergedState_last_asset]
  · simp [hm, processMergedState_last_asset]

/-! ## The confirmation gate -/

theorem confirmOpen_snoc_keep {h : List (Option ConversationAction)}
    {a : Option ConversationAction}
    (hC : ConfirmOpen h) (ha : opClears a = false) : ConfirmOpen (h ++ [a]) := by
  obtain ⟨j, x, hj, hx, hrest⟩ := hC
  have hjlen : j < h.length := (List.get?_eq_some.mp hj).1
  refine ⟨j, x, ?_, hx, ?_⟩
  · rw [List.get?_append hjlen]
    exact hj
  · intro m y hm hy
    by_cases hmlen : m < h.length
    · exact hrest m y hm (by rwa [List.get?_append hmlen] at hy)
    · push_neg at hmlen
      rw [List.get?_append_right hmlen] at hy
      have hlt : m - h.length < 1 := by
        have := (List.get?_eq_some.mp hy).1
        simpa using this
      have h0 : m - h.length = 0 := by omega
      rw [h0] at hy
      simp only [List.get?] at hy
      cases hy
      exact ha

theorem confirmOpen_snoc_confirm {h : List (Option ConversationAction)}
    {a : Option ConversationAction}
    (ha : isConfirmA a = true) : ConfirmOpen (h ++ [a]) := by
  refine ⟨h.length, a, ?_, ha, ?_⟩
  · rw [List.get?_append_right le_rfl]
    simp
  · intro m y hm hy
    have hlen := (List.get?_eq_some.mp hy).1
    simp at hlen
    omega

/-- `GateInv` is preserved by every valid driver call. -/
theorem gateInv_step (s : ConversationState) (e : Ev)
    (h : List (Option ConversationAction))
    (hv : ValidEv s e) (hi : GateInv s h) :
    GateInv (stepEv s e).1 (h ++ [(stepEv s e).2]) := by
  cases e with
  | clearOp =>
    intro hp
    simp [stepEv] at hp
  | proc p =>
    obtain ⟨hci, hcp⟩ := hv
    intro hp
    simp only [stepEv] at hp ⊢
    unfold process at hp ⊢
    rcases hc : controlAction p.intent with _ | a
    · simp only [hc] at hp ⊢
      rcases processMain_pending (add_turn s .user p.raw_input) p (by simp [hcp])
        with hfalse | ⟨hint, hconf⟩
      · rw [hfalse] at hp
        exact absurd hp (by simp)
      · refine ⟨by rw [hint]; simp, confirmOpen_snoc_confirm hconf⟩
    · simp only [hc] at hp ⊢
      rw [add_turn_confirmation_pending, hcp] at hp
      exact absurd hp (by simp)
  | confirmInput i =>
    obtain ⟨hint, hopen⟩ := hi hv
    intro hp
    simp only [stepEv] at hp ⊢
    simp only [handle_confirmation] at hp ⊢
    by_cases h1 : trimStr (toLowerStr i) = "y" ∨ trimStr (toLowerStr i) = "yes"
        ∨ trimStr (toLowerStr i) = ""
    · rw [if_pos h1] at hp ⊢
      rcases hsi : s.current_intent with _ | intent
      · exact absurd hsi hint
      · simp only [hsi] at hp
        simp at hp
    · rw [if_neg h1] at hp ⊢
      by_cases h2 : trimStr (toLowerStr i) = "n" ∨ trimStr (toLowerStr i) = "no"
          ∨ trimStr (toLowerStr i) = "cancel" ∨ trimStr (toLowerStr i) = "abort"
      · rw [if_pos h2] at hp
        simp at hp
      · rw [if_neg h2] at hp ⊢
        exact ⟨hint, confirmOpen_snoc_keep hopen rfl⟩

/-- Along any valid trace, an `Execute` step taken with an intent still set
has an open `Confirm` in the operation history before it. -/
theorem gate_aux : ∀ (evs : List Ev) (s : ConversationState)
    (hist : List (Option ConversationAction)),
    validFrom s evs → GateInv s hist →
    ∀ k sk c, (runFrom s evs).get? k = some (sk, some (ConversationAction.execute c)) →
      sk.current_intent ≠ none →
      ConfirmOpen (hist ++ ((runFrom s evs).map Prod.snd).take k) := by
  intro evs
  induction evs with
  | nil =>
    intro s hist _ _ k sk c hk
    simp [runFrom] at hk
  | cons e es ih =>
    intro s hist hv hi k sk c hk hsk
    obtain ⟨hve, hvrest⟩ := hv
    cases k with
    | zero =>
      simp only [runFrom, List.get?, Option.some.injEq, Prod.mk.injEq] at hk
      obtain ⟨hs, ha⟩ := hk
      cases e with
      | proc p => exact absurd (hs ▸ hve.1) hsk
      | clearOp => simp [stepEv] at ha
      | confirmInput i =>
        obtain ⟨_, hopen⟩ := hi hve
        simpa [runFrom] using hopen
    | succ k =>
      simp only [runFrom, List.get?] at hk
      have hres := ih (stepEv s e).1 (hist ++ [(stepEv s e).2]) hvrest
        (gateInv_step s e hist hve hi) k sk c hk hsk
      simpa [runFrom, List.append_assoc] using hres

/-- No `controlAction` is an `Execute`. -/
theorem controlAction_not_execute (i : Intent) (a : ConversationAction)
    (h : controlAction i = some a) (c : String) :
    a ≠ ConversationAction.execute c := by
  cases i <;> simp only [controlAction, Option.some.injEq] at h <;>
    first
    | exact Option.noConfusion h
    | (subst h; simp)

/-- C1.  Confirmation gate: for every Intent with
`requires_confirmation = true`, in any valid trace of driver calls from an
idle state (`process` only from idle, `handle_confirmation` only while
confirming), (a) `process` itself never returns `Execute` for such an
intent, and (b) whenever a step emits `Execute` while such an intent is the
current one, some earlier step of the trace emitted a `Confirm` and no step
in between ended the operation (`opClears`: a `clear_operation` call, an
`Execute`, or a `Cancel`). -/
theorem C1_confirmation_gate
    (s0 : ConversationState) (evs : List Ev)
    (h0 : s0.current_intent = none ∧ s0.confirmation_pending = false)
    (hv : validFrom s0 evs) :
    (∀ (s : ConversationState) (p : ParsedInput) (c : String),
        p.intent.requires_confirmation = true →
        (process s p).2 ≠ ConversationAction.execute c) ∧
    (∀ k sk c I,
        (runFrom s0 evs).get? k = some (sk, some (ConversationAction.execute c)) →
        sk.current_intent = some I → I.requires_confirmation = true →
        ∃ j, j < k ∧
          (∃ x, ((runFrom s0 evs).map Prod.snd).get? j = some x ∧ isConfirmA x = true) ∧
          ∀ m y, j < m → m < k →
            ((runFrom s0 evs).map Prod.snd).get? m = some y → opClears y = false) := by
  constructor
  · intro s p c hreq
    unfold process
    rcases hc : controlAction p.intent with _ | a
    · simp only [hc]
      exact processMain_not_execute (add_turn s .user p.raw_input) p hreq c
    · simp only [hc]
      exact controlAction_not_execute p.intent a hc c
  · intro k sk c I hk hski hreq
    have hopen := gate_aux evs s0 [] hv
      (fun hpend => by simp [h0.2] at hpend) k sk c hk (by simp [hski])
    rw [List.nil_append] at hopen
    obtain ⟨j, x, hj, hx, hrest⟩ := hopen
    have hjt := (List.get?_eq_some.mp hj).1
    have hjk : j < k := lt_of_lt_of_le hjt
      (List.length_take_le k (((runFrom s0 evs).map Prod.snd)))
    refine ⟨j, hjk, ⟨x, ?_, hx⟩, ?_⟩
    · rw [List.get?_take hjk] at hj
      exact hj
    · intro m y hm hmk hy
      exact hrest m y hm (by rwa [List.get?_take hmk])

/-- Witness for C1: the two-step trace "fully resolved buy parse, then
confirmation `y`" executes at step 1 with the `Confirm` found at step 0. -/
theorem C1_confirmation_gate_witness :
    (process ConversationState.empty gateDemoParsed).2 ≠
      ConversationAction.execute gateCmd ∧
    ∃ j, j < 1 ∧
      (∃ x, ((runFrom ConversationState.empty gateEvs).map Prod.snd).get? j = some x ∧
        isConfirmA x = true) ∧
      ∀ m y, j < m → m < 1 →
        ((runFrom ConversationState.empty gateEvs).map Prod.snd).get? m = some y →
        opClears y = false := by
  have hpend : ValidEv (stepEv ConversationState.empty (Ev.proc gateDemoParsed)).1
      (Ev.confirmInput "y") := by
    show (stepEv ConversationState.empty (Ev.proc gateDemoParsed)).1.confirmation_pending = true
    decide
  have h := C1_confirmation_gate ConversationState.empty gateEvs
    ⟨rfl, rfl⟩ ⟨⟨rfl, rfl⟩, hpend, trivial⟩
  exact ⟨h.1 ConversationState.empty gateDemoParsed gateCmd (by decide),
    h.2 1 gateS1 gateCmd Intent.txBuy (by decide) (by decide) (by decide)⟩

/-- C2 counterexample.  The Claude provider propagates a network failure to
the caller instead of degrading: `parse_input` returns `Err` on a send
error, so the claim's "never propagates a hard failure" fails for the cloud
provider. -/
theorem C2_claude_error_counterexample :
    claude_parse_input jpNone (ClaudeNet.sendErr "connection timed out")
      "what is bitcoin worth" = Except.error "connection timed out" ∧
    exceptIsOk (claude_parse_input jpNone (ClaudeNet.sendErr "connection timed out")
      "what is bitcoin worth") = false := ⟨rfl, rfl⟩

/-- C2 amended.  The local (Ollama) provider never propagates a hard
failure: every network outcome yields `Ok` (degrading to the rule-based
extractor).  The cloud (Claude) provider returns `Ok` only when a text body
is delivered (unparseable model output degrades to an `Unclear` result
inside `parse_response`), and propagates send errors, non-success HTTP
statuses, and body-decode failures as `Err` to the caller. -/
theorem C2_provider_failure_semantics :
    (∀ prov jp net input, exceptIsOk (ollama_parse_input prov jp net input) = true) ∧
    (∀ jp content input,
      exceptIsOk (claude_parse_input jp (ClaudeNet.ok content) input) = true) ∧
    (∀ jp e input,
      exceptIsOk (claude_parse_input jp (ClaudeNet.sendErr e) input) = false) ∧
    (∀ jp st b input,
      exceptIsOk (claude_parse_input jp (ClaudeNet.httpFail st b) input) = false) ∧
    (∀ jp e input,
      exceptIsOk (claude_parse_input jp (ClaudeNet.decodeFail e) input) = false) := by
  refine ⟨?_, fun _ _ _ => rfl, fun _ _ _ => rfl, fun _ _ _ _ => rfl, fun _ _ _ => rfl⟩
  intro prov jp net input
  cases net <;> rfl

/-- C9.  The deterministic extractor is a pure function of the input text:
its result does not depend on the provider state (`&self` is never read),
and — it taking no dialogue-context argument at all — on any dialogue
context; two calls with the same input are identical by reflexivity. -/
theorem C9_extractor_pure (p₁ p₂ : ProviderState) (input : String) :
    rule_based_fallback p₁ input = rule_based_fallback p₂ input := rfl

/-- C10.  `handle_entity_input` computes an optional entity but leaves the
entire dialogue state unchanged, whatever the input and expected field. -/
theorem C10_handle_entity_input_frame
    (s : ConversationState) (input expected_field : String) :
    (handle_entity_input s input expected_field).1 = s := rfl

/-- C3 counterexample.  An honest buy parse with `missing = ["account"]`
plus a remembered `last_account` makes `process` fill the account from
context and emit `Confirm` — yet the state's `missing_entities` still holds
the provider-supplied `["account"]`, which disagrees with the recomputation
(required − collected = `[]`). -/
theorem C3_missing_entities_counterexample :
    (process c3State0 c3Parsed).1.missing_entities = ["account"] ∧
    calculate_missing (process c3State0 c3Parsed).1 Intent.txBuy = [] ∧
    isConfirmA (some (process c3State0 c3Parsed).2) = true := by decide

/-- C3 amended.  After `process` on a non-control parse, the
`missing_entities` field holds the provider-supplied missing list verbatim
(the recomputed value `calculate_missing` only selects the next action and
is not stored), except that the immediate-execute branch clears the whole
operation and with it the field. -/
theorem C3_missing_entities_amended (s : ConversationState) (p : ParsedInput)
    (h : controlAction p.intent = none) :
    (isExecuteA (process s p).2 = false →
      (process s p).1.missing_entities = p.missing) ∧
    (isExecuteA (process s p).2 = true →
      (process s p).1.missing_entities = []) := by
  unfold process
  simp only [h]
  exact processMain_missing (add_turn s .user p.raw_input) p

/-- Witness for the amended C3 at the counterexample input. -/
theorem C3_missing_entities_amended_witness :
    (process c3State0 c3Parsed).1.missing_entities = c3Parsed.missing := by
  exact (C3_missing_entities_amended c3State0 c3Parsed rfl).1 (by decide)

/-- C4 counterexample.  A control-intent (`Unclear`) parse carrying
`account`/`asset` entities does not update the short-term context:
`process` short-circuits before `update_from_parsed` runs. -/
theorem C4_control_context_counterexample :
    c4Parsed.get_string "account" = some "Binance" ∧
    c4Parsed.get_string "asset" = some "BTC" ∧
    c4Parsed.intent = Intent.unclear ∧
    (process ConversationState.empty c4Parsed).1.last_account = none ∧
    (process ConversationState.empty c4Parsed).1.last_asset = none := by decide

/-- C4 amended.  `process` writes the parse's `account`/`from_account` and
`asset` entities into the short-term context exactly on non-control
parses (as `update_from_parsed` does); on the four control intents the
context is left unchanged. -/
theorem C4_context_update_amended (s : ConversationState) (p : ParsedInput) :
    (controlAction p.intent = none →
      (process s p).1.last_account = (update_from_parsed s p).last_account ∧
      (process s p).1.last_asset = (update_from_parsed s p).last_asset) ∧
    (controlAction p.intent ≠ none →
      (process s p).1.last_account = s.last_account ∧
      (process s p).1.last_asset = s.last_asset) := by
  constructor
  · intro h
    unfold process
    simp only [h]
    constructor
    · rw [processMain_last_account]
      simp [update_from_parsed_last_account]
    · rw [processMain_last_asset]
      simp [update_from_parsed_last_asset]
  · intro h
    unfold process
    rcases hc : controlAction p.intent with _ | a
    · exact absurd hc h
    · simp only [hc]
      exact ⟨add_turn_last_account s .user p.raw_input,
             add_turn_last_asset s .user p.raw_input⟩

/-- Witness for the amended C4 at the counterexample input. -/
theorem C4_context_update_amended_witness :
    (process ConversationState.empty c4Parsed).1.last_account =
      ConversationState.empty.last_account ∧
    (process ConversationState.empty c4Parsed).1.last_asset =
      ConversationState.empty.last_asset := by
  exact (C4_context_update_amended ConversationState.empty c4Parsed).2 (by decide)

/-- C5 counterexample.  The price-check path of the deterministic extractor
does not report its required entity: on input `"price"` no symbol is found,
yet `missing` is left empty (the claim expected `["symbols"]`). -/
theorem C5_price_path_counterexample :
    (rule_based_fallback defaultProv "price").intent = Intent.priceCheck ∧
    Intent.priceCheck.required_entities = ["symbols"] ∧
    findEnt (rule_based_fallback defaultProv "price").entities "symbols" = none ∧
    (rule_based_fallback defaultProv "price").missing = [] := by decide

/-- The buy/sell field collection reports a name missing exactly when no
value was extracted for it (and then stores no value). -/
theorem collect_buy_sell_missing_iff (prov : ProviderState) (input : String) :
    ∀ name, name ∈ ["asset", "quantity", "price", "account"] →
      ((name ∈ (collect_buy_sell prov input).2) ↔
        findEnt (collect_buy_sell prov input).1 name = none) := by
  intro name hname
  unfold collect_buy_sell
  rcases hA : extract_single_symbol prov input with _ | a <;>
    rcases hQ : extract_quantity prov input with _ | q <;>
    rcases hP : extract_price prov input with _ | pr <;>
    rcases hAc : extract_account prov input with _ | ac <;>
    simp only [List.mem_cons, List.not_mem_nil, or_false] at hname <;>
    rcases hname with rfl | rfl | rfl | rfl <;>
    simp [findEnt]

/-- C5 amended.  The buy and sell paths report exactly the unfound required
fields in `missing` and never insert a guessed value; the transfer path
reports all four required fields missing with no entities; but the
price-check path leaves `missing` empty even when its required entity
`symbols` was not extracted. -/
theorem C5_missing_reporting_amended (prov : ProviderState) (input : String) :
    ((rule_based_fallback prov input).intent = Intent.txBuy ∨
      (rule_based_fallback prov input).intent = Intent.txSell →
      ∀ name, name ∈ ["asset", "quantity", "price", "account"] →
        ((name ∈ (rule_based_fallback prov input).missing) ↔
          findEnt (rule_based_fallback prov input).entities name = none)) ∧
    ((rule_based_fallback prov input).intent = Intent.holdingsMove →
      (rule_based_fallback prov input).entities = [] ∧
      (rule_based_fallback prov input).missing =
        ["asset", "quantity", "from_account", "to_account"]) ∧
    ((rule_based_fallback prov input).intent = Intent.priceCheck →
      (rule_based_fallback prov input).missing = []) := by
  unfold rule_based_fallback
  dsimp only
  split_ifs <;>
    refine ⟨fun h => ?_, fun h => ?_, fun h => ?_⟩ <;>
    first
    | rfl
    | exact ⟨rfl, rfl⟩
    | exact fun name hname => collect_buy_sell_missing_iff prov input name hname
    | exact absurd h (by simp)

/-- Witness for the amended C5: on a buy input with no recognisable
account, `account` is reported missing and absent from the entities. -/
theorem C5_missing_reporting_amended_witness :
    ("account" ∈ (rule_based_fallback defaultProv "bought 2 btc at 100").missing ↔
      findEnt (rule_based_fallback defaultProv "bought 2 btc at 100").entities
        "account" = none) := by
  exact (C5_missing_reporting_amended defaultProv "bought 2 btc at 100").1
    (Or.inl (by decide)) "account" (by decide)

/-- C6.  Routing policy: in Hybrid mode, Low/Medium complexity calls the
local provider when configured (else the cloud one), High complexity the
cloud provider when configured (else the local one); with no provider
configured, `parse_input` returns the `Unclear`/0.0/no-entities stub; and
in Disabled mode no provider is ever called (for any service reachable
from `AiService::new`, which builds no provider in Disabled mode). -/
theorem C6_routing_policy :
    (∀ input c o, assess_complexity input ≠ Complexity.high →
      called_provider AiMode.hybrid (assess_complexity input) c o =
        (if o then some ProviderKind.ollama
         else if c then some ProviderKind.claude else none)) ∧
    (∀ input c o, assess_complexity input = Complexity.high →
      called_provider AiMode.hybrid (assess_complexity input) c o =
        (if c then some ProviderKind.claude
         else if o then some ProviderKind.ollama else none)) ∧
    (∀ mode input claudeResult ollamaResult,
      ai_parse_input mode false false claudeResult ollamaResult input =
        Except.ok { intent := .unclear, entities := [], missing := [],
                    confidence := dec 0 1, raw_input := input }) ∧
    (∀ complexity c o, ProvidersFromConfig AiMode.disabled c o →
      called_provider AiMode.disabled complexity c o = none) := by
  refine ⟨?_, ?_, ?_, ?_⟩
  · intro input c o h
    cases hc : assess_complexity input with
    | low => cases c <;> cases o <;> rfl
    | medium => cases c <;> cases o <;> rfl
    | high => exact absurd hc h
  · intro input c o h
    rw [h]
    cases c <;> cases o <;> rfl
  · intro mode input claudeResult ollamaResult
    have hnone : called_provider mode (assess_complexity input) false false = none := by
      cases mode <;> cases assess_complexity input <;> rfl
    simp [ai_parse_input, hnone]
  · intro complexity c o hw
    obtain ⟨hc, ho⟩ := hw
    cases c
    · cases o
      · rfl
      · rcases ho rfl with h | h <;> exact AiMode.noConfusion h
    · rcases hc rfl with h | h <;> exact AiMode.noConfusion h

/-- Witness for C6: a four-word Medium-complexity utterance routes to the
local provider in Hybrid mode with both providers configured; a Disabled
service built from configuration calls no provider. -/
theorem C6_routing_policy_witness :
    called_provider AiMode.hybrid (assess_complexity "bought some btc today")
      true true = some ProviderKind.ollama ∧
    called_provider AiMode.disabled Complexity.low false false = none := by
  constructor
  · exact (C6_routing_policy.1 "bought some btc today" true true (by decide)).trans rfl
  · exact C6_routing_policy.2.2.2 Complexity.low false false
      ⟨fun hc => absurd hc (by decide), fun ho => absurd ho (by decide)⟩

/-- C7.  End-to-end buy: on "I bought 0.1 btc at 95000 on Binance" the
deterministic extractor yields `tx.buy` with asset BTC, quantity 0.1
(`dec 1 1`), price 95000 (`dec 95000 0`), account Binance and nothing
missing; `process` emits the `Confirm` with exactly the claimed details;
and `handle_confirmation "y"` emits `Execute` with exactly the claimed
command string. -/
theorem C7_end_to_end_buy :
    (rule_based_fallback defaultProv "I bought 0.1 btc at 95000 on Binance").intent
      = Intent.txBuy ∧
    findEnt (rule_based_fallback defaultProv "I bought 0.1 btc at 95000 on Binance").entities
      "asset" = some (Entity.str "BTC") ∧
    findEnt (rule_based_fallback defaultProv "I bought 0.1 btc at 95000 on Binance").entities
      "quantity" = some (Entity.num (dec 1 1)) ∧
    findEnt (rule_based_fallback defaultProv "I bought 0.1 btc at 95000 on Binance").entities
      "price" = some (Entity.num (dec 95000 0)) ∧
    findEnt (rule_based_fallback defaultProv "I bought 0.1 btc at 95000 on Binance").entities
      "account" = some (Entity.str "Binance") ∧
    (rule_based_fallback defaultProv "I bought 0.1 btc at 95000 on Binance").missing = [] ∧
    (process ConversationState.empty
        (rule_based_fallback defaultProv "I bought 0.1 btc at 95000 on Binance")).2 =
      ConversationAction.confirm "Transaction: BUY"
        "tx buy BTC 0.1 --account \"Binance\" --price 95000"
        [("Asset", "BTC"), ("Quantity", "0.1"), ("Price", "$95000.00"),
         ("Account", "Binance"), ("Total", "$9500.00")] ∧
    (handle_confirmation
        (process ConversationState.empty
          (rule_based_fallback defaultProv "I bought 0.1 btc at 95000 on Binance")).1
        "y").2 =
      ConversationAction.execute "tx buy BTC 0.1 --account \"Binance\" --price 95000" := by
  decide

/-- C8 counterexample.  In "bought 1 btc at 500 on kraken" the price
pattern captures 500 with no `k` suffix, yet `extract_price` returns
500000 (`dec 5000000 1`, value 500000): the `k` of "kraken" anywhere in
the sentence triggers the ×1000 normalisation because the code tests
`input_lower.contains("k")` on the whole input. -/
theorem C8_price_k_counterexample :
    price_match_raw "bought 1 btc at 500 on kraken" = some (dec 500 0) ∧
    extract_price defaultProv "bought 1 btc at 500 on kraken" =
      some (dec 5000000 1) ∧
    Deci.veq (dec 5000000 1) (dec 500000 0) = true ∧
    Deci.veq (dec 5000000 1) (dec 500 0) = false := by decide

/-- C8 amended.  Whenever a price pattern captures a number, the returned
price is the captured number ×1000 exactly when the lowercased
comma/dollar-stripped input contains the letter `k` anywhere (not only as
a suffix of the number) and the captured number is below 1000; otherwise
the captured number unchanged. -/
theorem C8_price_k_amended (prov : ProviderState) (input : String) (n : Deci)
    (h : price_match_raw input = some n) :
    extract_price prov input =
      some (if (toLowerStr (stripChar (stripChar input ',') '$')).data.contains 'k'
              ∧ n.blt (dec 10000 1) then n.mul (dec 10000 1) else n) := by
  simp only [price_match_raw] at h
  simp only [extract_price]
  rcases h1 : (scanFirst pricePat1At
      ((toLowerStr (stripChar (stripChar input ',') '$')).data)).bind
      (fun n => parseDec (String.mk n)) with _ | q1
  · rcases h2 : (scanFirst pricePat2At
        ((toLowerStr (stripChar (stripChar input ',') '$')).data)).bind
        (fun n => parseDec (String.mk n)) with _ | q2
    · rcases h3 : (scanFirst pricePat3At
          ((toLowerStr (stripChar (stripChar input ',') '$')).data)).bind
          (fun n => parseDec (String.mk n)) with _ | q3
      · simp [h1, h2, h3] at h
      · simp only [h1, h2, h3] at h ⊢
        simp only [Option.some.injEq] at h
        subst h
        rfl
    · simp only [h1, h2] at h ⊢
      simp only [Option.some.injEq] at h
      subst h
      rfl
  · simp only [h1] at h ⊢
    simp only [Option.some.injEq] at h
    subst h
    rfl

/-- Witness for the amended C8: a genuine `k` suffix ("at 50k") yields the
captured 50 scaled by 1000. -/
theorem C8_price_k_amended_witness :
    extract_price defaultProv "bought btc at 50k" =
      some (if (toLowerStr (stripChar (stripChar "bought btc at 50k" ',') '$')).data.contains 'k'
              ∧ (dec 50 0).blt (dec 10000 1)
            then (dec 50 0).mul (dec 10000 1) else (dec 50 0)) := by
  exact C8_price_k_amended defaultProv "bought btc at 50k" (dec 50 0) (by decide)
